import Mathlib

/-!
Verification development for the fleet-orchestration core of the delivery
planner backend.  The Python modules under
src/backend/src/delivery_planner/ (drone_fleet_manager.py,
mavlink_port_manager.py, multi_drone_telemetry.py, scheduler.py,
multi_drone_mission_runner.py) are shallowly embedded below: Python dicts
become association lists in insertion order, in-place mutation becomes
explicit state passing, floats used only in order comparisons become
rationals, and code that can raise returns an Option.
-/

namespace DeliveryPlanner

/-! ## Association-list helpers (Python dict semantics, insertion order) -/

/-- Value stored under key k (Python dict lookup); keys are unique in
every reachable state, so first-match lookup is dict lookup. -/
def lookupA {κ α : Type} [DecidableEq κ] : List (κ × α) → κ → Option α
  | [], _ => none
  | (k, v) :: rest, k0 => if k = k0 then some v else lookupA rest k0

/-- Python dict assignment m[k] = v: overwrite in place when the key is
present (keeping its position, as dicts do), otherwise append at the end. -/
def setA {κ α : Type} [DecidableEq κ] : List (κ × α) → κ → α → List (κ × α)
  | [], k, v => [(k, v)]
  | (k1, v1) :: rest, k, v =>
    if k1 = k then (k, v) :: rest else (k1, v1) :: setA rest k v

/-- Python dict deletion del m[k]: drop the entries stored under k. -/
def eraseA {κ α : Type} [DecidableEq κ] : List (κ × α) → κ → List (κ × α)
  | [], _ => []
  | (k1, v1) :: rest, k =>
    if k1 = k then eraseA rest k else (k1, v1) :: eraseA rest k

theorem lookupA_append {κ α : Type} [DecidableEq κ]
    (m m' : List (κ × α)) (k : κ) :
    lookupA (m ++ m') k =
      match lookupA m k with
      | some v => some v
      | none => lookupA m' k := by
  induction m with
  | nil => rfl
  | cons e rest ih =>
    obtain ⟨k1, v1⟩ := e
    by_cases h : k1 = k <;> simp [lookupA, h, ih]

theorem lookupA_append_right {κ α : Type} [DecidableEq κ]
    (m m' : List (κ × α)) (k : κ) (h : lookupA m k = none) :
    lookupA (m ++ m') k = lookupA m' k := by
  rw [lookupA_append, h]

theorem lookupA_append_left {κ α : Type} [DecidableEq κ]
    (m m' : List (κ × α)) (k : κ) (v : α) (h : lookupA m k = some v) :
    lookupA (m ++ m') k = some v := by
  rw [lookupA_append, h]

theorem lookupA_erase_self {κ α : Type} [DecidableEq κ]
    (m : List (κ × α)) (k : κ) : lookupA (eraseA m k) k = none := by
  induction m with
  | nil => rfl
  | cons e rest ih =>
    obtain ⟨k1, v1⟩ := e
    by_cases h : k1 = k <;> simp [eraseA, lookupA, h, ih]

theorem lookupA_erase_ne {κ α : Type} [DecidableEq κ]
    (m : List (κ × α)) (k k0 : κ) (h : k ≠ k0) :
    lookupA (eraseA m k0) k = lookupA m k := by
  have hne : ¬ (k0 = k) := fun hc => h hc.symm
  induction m with
  | nil => rfl
  | cons e rest ih =>
    obtain ⟨k1, v1⟩ := e
    by_cases h1 : k1 = k0
    · simp [eraseA, lookupA, h1, hne, ih]
    · by_cases h2 : k1 = k <;> simp [eraseA, lookupA, h1, h2, h, hne, ih]

theorem lookupA_setA_self {κ α : Type} [DecidableEq κ]
    (m : List (κ × α)) (k : κ) (v : α) :
    lookupA (setA m k v) k = some v := by
  induction m with
  | nil => simp [setA, lookupA]
  | cons e rest ih =>
    obtain ⟨k1, v1⟩ := e
    by_cases h : k1 = k <;> simp [setA, lookupA, h, ih]

theorem lookupA_setA_ne {κ α : Type} [DecidableEq κ]
    (m : List (κ × α)) (k k0 : κ) (v : α) (h : k ≠ k0) :
    lookupA (setA m k0 v) k = lookupA m k := by
  have hne : ¬ (k0 = k) := fun hc => h hc.symm
  induction m with
  | nil => simp [setA, lookupA, hne]
  | cons e rest ih =>
    obtain ⟨k1, v1⟩ := e
    by_cases h1 : k1 = k0
    · simp [setA, lookupA, h1, hne, fun hc : k1 = k => hne (h1 ▸ hc)]
    · by_cases h2 : k1 = k <;> simp [setA, lookupA, h1, h2, h, hne, ih]

theorem lookupA_eq_none_iff {κ α : Type} [DecidableEq κ]
    (m : List (κ × α)) (k : κ) :
    lookupA m k = none ↔ k ∉ m.map Prod.fst := by
  induction m with
  | nil => simp [lookupA]
  | cons e rest ih =>
    obtain ⟨k1, v1⟩ := e
    by_cases h : k1 = k
    · simp [lookupA, h]
    · simp only [lookupA, h, if_false, List.map_cons, List.mem_cons, ih]
      constructor
      · intro hk
        exact fun hc => hc.elim (fun hc1 => h hc1.symm) hk
      · intro hk
        exact fun hc => hk (Or.inr hc)

theorem lookupA_mem {κ α : Type} [DecidableEq κ]
    (m : List (κ × α)) (k : κ) (v : α) (h : lookupA m k = some v) :
    (k, v) ∈ m := by
  induction m with
  | nil => simp [lookupA] at h
  | cons e rest ih =>
    obtain ⟨k1, v1⟩ := e
    by_cases h1 : k1 = k
    · subst h1
      simp [lookupA] at h
      simp [h]
    · simp [lookupA, h1] at h
      exact List.mem_cons_of_mem _ (ih h)

theorem lookupA_of_mem_nodup {κ α : Type} [DecidableEq κ]
    (m : List (κ × α)) (k : κ) (v : α)
    (hnd : (m.map Prod.fst).Nodup) (h : (k, v) ∈ m) :
    lookupA m k = some v := by
  induction m with
  | nil => simp at h
  | cons e rest ih =>
    obtain ⟨k1, v1⟩ := e
    simp only [List.map_cons, List.nodup_cons] at hnd
    rcases List.mem_cons.mp h with h1 | h1
    · obtain ⟨hk, hv⟩ := Prod.mk.injEq .. ▸ h1
      simp_all [lookupA]
    · have hne : ¬ (k1 = k) := by
        intro hc
        subst hc
        exact hnd.1 (List.mem_map.mpr ⟨(k1, v), h1, rfl⟩)
      simp [lookupA, hne, ih hnd.2 h1]

/-! ## MAVLinkPortManager (mavlink_port_manager.py)

The manager's three fields map directly: self.ports (dict port -> config,
insertion order) becomes a list of PortConfig in insertion order;
self.drone_port_mapping becomes an association list; self.reserved_ports
a list used as a set.  The socket bind-probe of _is_port_available is an
external effect and is passed in as a boolean oracle. -/

/-- PortConfig dataclass of mavlink_port_manager.py (connection_type is
never consulted by the embedded operations and is omitted). -/
structure PortConfig where
  port : Nat
  is_available : Bool := true
  assigned_drone_id : Option String := none
  deriving Repr, DecidableEq

/-- The MAVLinkPortManager state. -/
structure PortManagerState where
  ports : List PortConfig
  drone_port_mapping : List (String × Nat)
  reserved_ports : List Nat
  deriving Repr, DecidableEq

/-- The freshly constructed manager (MAVLinkPortManager.__init__). -/
def PortManagerState.empty : PortManagerState :=
  { ports := [], drone_port_mapping := [], reserved_ports := [] }

/-- initialize_port_pool(base_port, count) run on a fresh manager: adds
port base+i for each i < count that passes the availability probe, in
ascending order.  The probe avail models the socket bind test
_is_port_available. -/
def init_port_pool (base count : Nat) (avail : Nat → Bool) :
    PortManagerState :=
  { ports :=
      ((List.range count).filter (fun i => avail (base + i))).map
        (fun i => { port := base + i }),
    drone_port_mapping := [],
    reserved_ports := [] }

/-- The scan of allocate_port over self.ports.items(): find the first
config that is available and not reserved, flip it to allocated for d,
and return its port number together with the updated list. -/
def findAlloc (d : String) (rsv : List Nat) :
    List PortConfig → Option (Nat × List PortConfig)
  | [] => none
  | c :: rest =>
    if c.is_available = true ∧ c.port ∉ rsv then
      some (c.port,
        { c with is_available := false, assigned_drone_id := some d } :: rest)
    else
      match findAlloc d rsv rest with
      | none => none
      | some (p, rest') => some (p, c :: rest')

/-- allocate_port(drone_id): idempotent early return when the drone is
already mapped, otherwise the linear scan of the pool. -/
def allocate_port (s : PortManagerState) (d : String) :
    Option Nat × PortManagerState :=
  match lookupA s.drone_port_mapping d with
  | some p => (some p, s)
  | none =>
    match findAlloc d s.reserved_ports s.ports with
    | some (p, ports') =>
      (some p,
        { s with ports := ports',
                 drone_port_mapping := s.drone_port_mapping ++ [(d, p)] })
    | none => (none, s)

/-- Replace the config(s) stored under port number p (the in-place
mutation of the config object fetched by self.ports.get(port)). -/
def setPortConfig (l : List PortConfig) (p : Nat) (c' : PortConfig) :
    List PortConfig :=
  l.map (fun c => if c.port = p then c' else c)

/-- release_port(drone_id). -/
def release_port (s : PortManagerState) (d : String) :
    Bool × PortManagerState :=
  match lookupA s.drone_port_mapping d with
  | none => (false, s)
  | some p =>
    match (s.ports.find? (fun c => c.port = p)) with
    | none => (false, s)
    | some c =>
      (true,
        { s with
            ports := setPortConfig s.ports p
              { c with is_available := true, assigned_drone_id := none },
            drone_port_mapping := eraseA s.drone_port_mapping d })

/-- The issues reported by validate_port_assignments, as structured
values in place of the formatted log strings. -/
inductive PortIssue where
  | duplicateAssignment (port : Nat) (d1 d2 : String)
  | assignedButAvailable (port : Nat) (d : String)
  | unavailableNotAssigned (port : Nat)
  deriving Repr, DecidableEq

/-- First loop of validate_port_assignments: walk the drone-port mapping
keeping the ports already seen, reporting a duplicate when a port
reappears. -/
def dupScan : List (String × Nat) → List (Nat × String) → List PortIssue
  | [], _ => []
  | (d, p) :: rest, seen =>
    match lookupA seen p with
    | some d0 => .duplicateAssignment p d d0 :: dupScan rest seen
    | none => dupScan rest (seen ++ [(p, d)])

/-- Second loop: a mapped port whose config is still marked available. -/
def availScan (ports : List PortConfig) :
    List (String × Nat) → List PortIssue
  | [] => []
  | (d, p) :: rest =>
    match ports.find? (fun c => c.port = p) with
    | some c =>
      if c.is_available = true then
        .assignedButAvailable p d :: availScan ports rest
      else availScan ports rest
    | none => availScan ports rest

/-- Python: config.assigned_drone_id not in self.drone_port_mapping
(None is never a dict key, so a missing assignee also counts). -/
def assigneeMissing (m : List (String × Nat)) : Option String → Bool
  | none => true
  | some d => (lookupA m d).isNone

/-- Third loop: an unavailable port whose assignee is not a mapping key. -/
def unassignedScan (m : List (String × Nat)) :
    List PortConfig → List PortIssue
  | [] => []
  | c :: rest =>
    if c.is_available = false ∧ assigneeMissing m c.assigned_drone_id then
      .unavailableNotAssigned c.port :: unassignedScan m rest
    else unassignedScan m rest

/-- validate_port_assignments(). -/
def validate_port_assignments (s : PortManagerState) : List PortIssue :=
  dupScan s.drone_port_mapping [] ++
    availScan s.ports s.drone_port_mapping ++
    unassignedScan s.drone_port_mapping s.ports

/-- _reset_all_assignments(): every config back to available with no
assignee (reserved_ports untouched). -/
def reset_all_assignments (s : PortManagerState) : PortManagerState :=
  { s with ports := (s.ports.map
      (fun c => { c with is_available := true, assigned_drone_id := none })) }

/-- The reallocation loop at the end of auto_fix_port_assignments. -/
def reallocLoop (s : PortManagerState) : List String → PortManagerState
  | [] => s
  | d :: rest => reallocLoop (allocate_port s d).2 rest

/-- auto_fix_port_assignments(): no-op when validate reports nothing;
otherwise reset every slot, snapshot the mapped drone ids in dict
(insertion) order, clear the mapping and reallocate each id in turn. -/
def auto_fix_port_assignments (s : PortManagerState) : PortManagerState :=
  if validate_port_assignments s = [] then s
  else
    let s1 := reset_all_assignments s
    let keys := s1.drone_port_mapping.map Prod.fst
    reallocLoop { s1 with drone_port_mapping := [] } keys

/-- Lexicographic order on character lists by code point. -/
def charsLe : List Char → List Char → Bool
  | [], _ => true
  | _ :: _, [] => false
  | c1 :: r1, c2 :: r2 =>
    if c1.toNat < c2.toNat then true
    else if c2.toNat < c1.toNat then false
    else charsLe r1 r2

/-- Lexicographic order on strings by code point. -/
def strLe (a b : String) : Bool := charsLe a.data b.data

/-- Insert into a list sorted by strLe. -/
def insertStr (x : String) : List String → List String
  | [] => [x]
  | y :: ys => if strLe x y then x :: y :: ys else y :: insertStr x ys

/-- Insertion sort of strings by strLe. -/
def sortStr : List String → List String
  | [] => []
  | x :: xs => insertStr x (sortStr xs)

/-- Modelled from the spec: section 4.1 describes autoRepair as
re-allocating every previously-mapped unit "in unit-id order", i.e. the
sorted order of the unit ids; this comparator definition differs from
auto_fix_port_assignments only in sorting the snapshot of mapped ids. -/
def autoRepairSortedSpec (s : PortManagerState) : PortManagerState :=
  if validate_port_assignments s = [] then s
  else
    let s1 := reset_all_assignments s
    let keys := sortStr (s1.drone_port_mapping.map Prod.fst)
    reallocLoop { s1 with drone_port_mapping := [] } keys

/-! ## DroneFleetManager (drone_fleet_manager.py) -/

/-- DroneStatus enumeration. -/
inductive DroneStatus where
  | idle | armed | in_flight | mission_active
  | returning | landing | error | offline
  deriving Repr, DecidableEq

/-- Mutable operational part of the DroneInfo dataclass.  The static
config, last_position and the MAVSDK system handle are never consulted
by the embedded operations and are omitted; battery_level is a float
used only in order comparisons and becomes a rational. -/
structure DroneInfo where
  status : DroneStatus
  current_order_id : Option String := none
  battery_level : ℚ := 1
  is_connected : Bool := false
  deriving Repr, DecidableEq

/-- DroneFleetManager state: self.drones and self.order_assignments as
insertion-ordered dicts. -/
structure FleetState where
  drones : List (String × DroneInfo)
  order_assignments : List (String × String)
  deriving Repr, DecidableEq

/-- get_available_drone(): first registered drone that is idle,
connected and has battery strictly above 0.2. -/
def get_available_drone (s : FleetState) : Option String :=
  (s.drones.find? (fun e =>
    decide (e.2.status = .idle ∧ e.2.is_connected = true ∧
      e.2.battery_level > mkRat 1 5))).map Prod.fst

/-- assign_order_to_drone(order_id, drone_id): fails when the drone is
unknown or not idle; on success records the assignment, sets the
drone's current order and arms it. -/
def assign_order_to_drone (s : FleetState) (order_id drone_id : String) :
    Bool × FleetState :=
  match lookupA s.drones drone_id with
  | none => (false, s)
  | some info =>
    if info.status ≠ .idle then (false, s)
    else
      (true,
        { drones := setA s.drones drone_id
            { info with current_order_id := some order_id,
                        status := .armed },
          order_assignments := setA s.order_assignments order_id drone_id })

/-- get_drone_for_order(order_id). -/
def get_drone_for_order (s : FleetState) (order_id : String) :
    Option String :=
  lookupA s.order_assignments order_id

/-- release_drone_from_order(order_id): silently does nothing when the
order is unassigned; when the mapped drone id is not a key of
self.drones the Python code raises KeyError, modelled as none. -/
def release_drone_from_order (s : FleetState) (order_id : String) :
    Option FleetState :=
  match lookupA s.order_assignments order_id with
  | none => some s
  | some drone_id =>
    match lookupA s.drones drone_id with
    | none => none
    | some info =>
      some
        { drones := setA s.drones drone_id
            { info with current_order_id := none, status := .idle },
          order_assignments := eraseA s.order_assignments order_id }

/-- update_drone_status(drone_id, status): unconditionally stores the
requested status for a registered drone; unknown ids are ignored. -/
def update_drone_status (s : FleetState) (drone_id : String)
    (st : DroneStatus) : FleetState :=
  match lookupA s.drones drone_id with
  | none => s
  | some info =>
    { s with drones := setA s.drones drone_id { info with status := st } }

/-- Modelled from the spec: the legal status graph of section 4.2,
Offline -> Connecting -> Idle <-> Armed -> InFlight -> MissionActive ->
Returning -> Landing -> Idle.  The Connecting state does not exist in
the code's DroneStatus enumeration, so the Offline -> Connecting ->
Idle chain collapses to Offline -> Idle here. -/
def legalEdge : DroneStatus → DroneStatus → Bool
  | .offline, .idle => true
  | .idle, .armed => true
  | .armed, .idle => true
  | .armed, .in_flight => true
  | .in_flight, .mission_active => true
  | .mission_active, .returning => true
  | .returning, .landing => true
  | .landing, .idle => true
  | _, _ => false

/-! ## Health assessment (multi_drone_telemetry.py, _assess_drone_health)

Timestamps are rationals (seconds); the telemetry history for a drone is
none when the drone id is not a key of drone_telemetry_history, and
otherwise the list of entry timestamps in append order (the Python code
reads history[-1], the newest entry).  The formatted log strings become
structured message values. -/

/-- The warning / error messages produced by _assess_drone_health. -/
inductive HealthMsg where
  | lowBattery | criticalBattery | notConnected | staleTelemetry
  | noTelemetryData | noTelemetryHistory | errorState | droneOffline
  deriving Repr, DecidableEq

/-- DroneHealthMetrics, restricted to the fields the assessment writes. -/
structure DroneHealthMetrics where
  is_healthy : Bool
  connection_status : String
  last_telemetry_update : ℚ
  warning_messages : List HealthMsg
  error_messages : List HealthMsg
  deriving Repr, DecidableEq

/-- The telemetry-staleness step of _assess_drone_health: the extra
warnings and the reported last_update value. -/
def staleCheck (history : Option (List ℚ)) (now : ℚ) :
    List HealthMsg × ℚ :=
  match history with
  | none => ([.noTelemetryHistory], now)
  | some h =>
    match h.getLast? with
    | none => ([.noTelemetryData], now)
    | some ts => if now - ts > 10 then ([.staleTelemetry], ts) else ([], now)

/-- _assess_drone_health(drone_id, drone_info, current_time), with the
error list and healthy flag accumulated exactly as the code does. -/
def assess_drone_health (info : DroneInfo) (history : Option (List ℚ))
    (now : ℚ) : DroneHealthMetrics :=
  let warnings1 : List HealthMsg :=
    if info.battery_level < mkRat 1 5 then [.lowBattery] else []
  let step1 : List HealthMsg × Bool :=
    if info.battery_level < mkRat 1 10 then ([.criticalBattery], false)
    else ([], true)
  let step2 : List HealthMsg × Bool :=
    if info.is_connected then step1 else (step1.1 ++ [.notConnected], false)
  let stale := staleCheck history now
  let step3 : List HealthMsg × Bool :=
    if info.status = .error then (step2.1 ++ [.errorState], false)
    else if info.status = .offline then (step2.1 ++ [.droneOffline], false)
    else step2
  { is_healthy := step3.2,
    connection_status :=
      if info.is_connected then "connected" else "disconnected",
    last_telemetry_update := stale.2,
    warning_messages := warnings1 ++ stale.1,
    error_messages := step3.1 }

/-! ## Scheduler cycle (scheduler.py) and mission dispatch
(multi_drone_mission_runner.py)

The delivery-order store is a list of order records; created_at is a
rational timestamp.  The executor call inside a scheduler cycle crosses
an await boundary, so the cycle is parameterised over the executor's
response; execute_order_mission below is the runner's own (sequential)
behaviour of that call. -/

/-- OrderStatus values used by the scheduler. -/
inductive OrderStatus where
  | pending | scheduled | in_flight | completed | failed
  deriving Repr, DecidableEq

/-- A delivery-order row, restricted to the fields the cycle touches. -/
structure DeliveryOrder where
  id : String
  created_at : ℚ
  status : OrderStatus
  deriving Repr, DecidableEq

/-- The scheduler's database query: pending orders ordered by
created_at, limit 1 (first minimum wins ties). -/
def oldestPending (orders : List DeliveryOrder) : Option DeliveryOrder :=
  (orders.filter (fun o => o.status = .pending)).foldl
    (fun acc o =>
      match acc with
      | none => some o
      | some best =>
        if o.created_at < best.created_at then some o else acc)
    none

/-- _update_order_status(order_id, status) (timestamps omitted). -/
def setOrderStatus (orders : List DeliveryOrder) (oid : String)
    (st : OrderStatus) : List DeliveryOrder :=
  orders.map (fun o => if o.id = oid then { o with status := st } else o)

/-- Status of an order row by id. -/
def statusOf (orders : List DeliveryOrder) (oid : String) :
    Option OrderStatus :=
  (orders.find? (fun o => o.id = oid)).map DeliveryOrder.status

/-- execute_order_mission(order): obtain an available drone, assign the
order to it; both checks failing reject the dispatch with no fleet
mutation.  (The spawned per-drone mission task is asynchronous work
beyond this call's return value.) -/
def execute_order_mission (f : FleetState) (order_id : String) :
    Bool × FleetState :=
  match get_available_drone f with
  | none => (false, f)
  | some d =>
    let r := assign_order_to_drone f order_id d
    if r.1 then (true, r.2) else (false, r.2)

/-- Scheduler state threaded through one cycle. -/
structure SchedulerState where
  orders : List DeliveryOrder
  fleet : FleetState
  current_orders : List (String × String)
  deriving Repr, DecidableEq

/-- _process_pending_orders_multi_drone, parameterised over the awaited
executor call.  Returns the new state and, when _handle_mission_failure
ran, the order id with the failure message it logged. -/
def processPendingMultiDrone
    (execMission : String → FleetState → Bool × FleetState)
    (s : SchedulerState) : SchedulerState × Option (String × String) :=
  match get_available_drone s.fleet with
  | none => (s, none)
  | some _ =>
    match oldestPending s.orders with
    | none => (s, none)
    | some ord =>
      let orders1 := setOrderStatus s.orders ord.id .scheduled
      let r := execMission ord.id s.fleet
      if r.1 then
        let cur :=
          match lookupA r.2.order_assignments ord.id with
          | some d => setA s.current_orders ord.id d
          | none => s.current_orders
        ({ orders := setOrderStatus orders1 ord.id .in_flight,
           fleet := r.2, current_orders := cur }, none)
      else
        ({ orders := setOrderStatus orders1 ord.id .failed,
           fleet := r.2, current_orders := s.current_orders },
         some (ord.id, "Failed to start multi-drone mission"))

/-! ## Claim C1: eligibility conditions of assign_order_to_drone -/

/-- A fleet with one registered drone that is idle but disconnected and
has an empty battery. -/
def c1_fleet : FleetState :=
  { drones := [("d1",
      { status := .idle, current_order_id := none,
        battery_level := 0, is_connected := false })],
    order_assignments := [] }

/-- C1: counterexample.  The claim says assign_order_to_drone returns
true only if the drone is idle, connected and has battery at least 0.2;
here the drone is disconnected with battery 0, yet the call succeeds
(the code checks only the Idle status). -/
theorem c1_counterexample :
    ((lookupA c1_fleet.drones "d1").map DroneInfo.is_connected =
        some false) ∧
    ((lookupA c1_fleet.drones "d1").map DroneInfo.battery_level =
        some 0) ∧
    (assign_order_to_drone c1_fleet "o1" "d1").1 = true := by
  refine ⟨rfl, rfl, ?_⟩
  decide

/-- C1 (amended): assign_order_to_drone o d returns true iff drone d is
registered with status Idle (connection state and battery level are not
consulted); in every other case it returns false and leaves the state
unchanged; on success it records the assignment o -> d, sets d's
current_order_id to o and its status to Armed, and leaves every other
drone record and assignment entry unchanged. -/
theorem assign_eq_of_none (s : FleetState) (o d : String)
    (h : lookupA s.drones d = none) :
    assign_order_to_drone s o d = (false, s) := by
  unfold assign_order_to_drone
  rw [h]

theorem assign_eq_of_not_idle (s : FleetState) (o d : String)
    (info : DroneInfo) (h : lookupA s.drones d = some info)
    (hst : info.status ≠ .idle) :
    assign_order_to_drone s o d = (false, s) := by
  unfold assign_order_to_drone
  rw [h]
  simp [hst]

theorem assign_eq_of_idle (s : FleetState) (o d : String)
    (info : DroneInfo) (h : lookupA s.drones d = some info)
    (hst : info.status = .idle) :
    assign_order_to_drone s o d =
      (true,
        { drones := setA s.drones d
            { info with current_order_id := some o, status := .armed },
          order_assignments := setA s.order_assignments o d }) := by
  unfold assign_order_to_drone
  rw [h]
  simp [hst]

theorem c1_assign_only_checks_idle (s : FleetState) (o d : String) :
    ((assign_order_to_drone s o d).1 = true ↔
      ∃ info, lookupA s.drones d = some info ∧ info.status = .idle) ∧
    ((assign_order_to_drone s o d).1 = false →
      (assign_order_to_drone s o d).2 = s) ∧
    (∀ info, lookupA s.drones d = some info → info.status = .idle →
      (assign_order_to_drone s o d).1 = true ∧
      lookupA (assign_order_to_drone s o d).2.drones d =
        some { info with current_order_id := some o, status := .armed } ∧
      lookupA (assign_order_to_drone s o d).2.order_assignments o =
        some d ∧
      (∀ d', d' ≠ d →
        lookupA (assign_order_to_drone s o d).2.drones d' =
          lookupA s.drones d') ∧
      (∀ o', o' ≠ o →
        lookupA (assign_order_to_drone s o d).2.order_assignments o' =
          lookupA s.order_assignments o')) := by
  cases hd : lookupA s.drones d with
  | none =>
    rw [assign_eq_of_none s o d hd]
    refine ⟨by simp, fun _ => rfl, fun info hinfo _ => by cases hinfo⟩
  | some info =>
    by_cases hst : info.status = .idle
    · rw [assign_eq_of_idle s o d info hd hst]
      refine ⟨?_, ?_, ?_⟩
      · exact ⟨fun _ => ⟨info, rfl, hst⟩, fun _ => rfl⟩
      · intro h
        exact absurd h (by simp)
      · intro info' hinfo' _
        obtain rfl := Option.some.inj hinfo'
        refine ⟨rfl, lookupA_setA_self _ _ _, lookupA_setA_self _ _ _,
          ?_, ?_⟩
        · intro d' hne
          exact lookupA_setA_ne _ _ _ _ hne
        · intro o' hne
          exact lookupA_setA_ne _ _ _ _ hne
    · rw [assign_eq_of_not_idle s o d info hd hst]
      refine ⟨?_, fun _ => rfl, fun info' hinfo' hst' => ?_⟩
      · refine ⟨fun h => absurd h (by simp), fun hex => ?_⟩
        obtain ⟨info', hinfo', hst'⟩ := hex
        obtain rfl := Option.some.inj hinfo'
        exact absurd hst' hst
      · obtain rfl := Option.some.inj hinfo'
        exact absurd hst' hst

/-- C1 (witness): the amended theorem applied to the one-drone fleet,
discharging the success-branch hypotheses concretely. -/
theorem c1_assign_only_checks_idle_witness :
    (assign_order_to_drone c1_fleet "o1" "d1").1 = true ∧
    lookupA (assign_order_to_drone c1_fleet "o1" "d1").2.drones "d1" =
      some { status := .armed, current_order_id := some "o1",
             battery_level := 0, is_connected := false } := by
  have h := (c1_assign_only_checks_idle c1_fleet "o1" "d1").2.2
    { status := .idle, current_order_id := none,
      battery_level := 0, is_connected := false } (by decide) rfl
  exact ⟨h.1, h.2.1⟩

/-! ## Claim C2: status transitions are not filtered by the legal graph -/

/-- A fleet with one registered idle drone. -/
def c2_fleet : FleetState :=
  { drones := [("d1",
      { status := .idle, current_order_id := none,
        battery_level := 1, is_connected := true })],
    order_assignments := [] }

/-- C2: counterexample.  Idle -> Landing is not an edge of the legal
graph of section 4.2 and is not a transition into Error, yet
update_drone_status applies it: the stored status changes from Idle to
Landing instead of being rejected. -/
theorem c2_counterexample :
    legalEdge .idle .landing = false ∧
    DroneStatus.landing ≠ DroneStatus.error ∧
    (lookupA c2_fleet.drones "d1").map DroneInfo.status =
      some .idle ∧
    (lookupA (update_drone_status c2_fleet "d1" .landing).drones
        "d1").map DroneInfo.status = some .landing := by
  decide

/-- C2 (amended): update_drone_status performs no legal-graph check at
all: for a registered drone it stores any requested status
unconditionally, and only a request for an unknown drone id leaves the
registry unchanged. -/
theorem c2_update_status_unconditional (s : FleetState) (d : String)
    (st : DroneStatus) :
    (lookupA s.drones d = none → update_drone_status s d st = s) ∧
    (∀ info, lookupA s.drones d = some info →
      lookupA (update_drone_status s d st).drones d =
        some { info with status := st } ∧
      (∀ d', d' ≠ d →
        lookupA (update_drone_status s d st).drones d' =
          lookupA s.drones d') ∧
      (update_drone_status s d st).order_assignments =
        s.order_assignments) := by
  cases hd : lookupA s.drones d with
  | none =>
    have he : update_drone_status s d st = s := by
      unfold update_drone_status
      rw [hd]
    exact ⟨fun _ => he, fun info hinfo => by cases hinfo⟩
  | some info =>
    have he : update_drone_status s d st =
        { s with drones := setA s.drones d { info with status := st } } := by
      unfold update_drone_status
      rw [hd]
    refine ⟨fun h => (by cases h), fun info' hinfo' => ?_⟩
    obtain rfl := Option.some.inj hinfo'
    rw [he]
    exact ⟨lookupA_setA_self _ _ _,
      fun d' hne => lookupA_setA_ne _ _ _ _ hne, rfl⟩

/-- C2 (witness): the amended theorem applied to the one-drone fleet
with the illegal Idle -> Landing request. -/
theorem c2_update_status_unconditional_witness :
    lookupA (update_drone_status c2_fleet "d1" .landing).drones "d1" =
      some { status := .landing, current_order_id := none,
             battery_level := 1, is_connected := true } :=
  ((c2_update_status_unconditional c2_fleet "d1" .landing).2
    { status := .idle, current_order_id := none,
      battery_level := 1, is_connected := true } rfl).1

/-! ## Claim C4: idempotence of allocate_port -/

/-- C4: allocate_port on a drone that already holds a port returns that
same port and changes nothing at all in the pool state. -/
theorem c4_allocate_idempotent (s : PortManagerState) (d : String)
    (p : Nat) (h : lookupA s.drone_port_mapping d = some p) :
    allocate_port s d = (some p, s) := by
  unfold allocate_port
  rw [h]

/-- C4 (witness): idempotence on a concrete one-entry pool. -/
theorem c4_allocate_idempotent_witness :
    allocate_port
      { ports := [{ port := 100, is_available := false,
                    assigned_drone_id := some "d1" }],
        drone_port_mapping := [("d1", 100)], reserved_ports := [] }
      "d1" =
    (some 100,
      { ports := [{ port := 100, is_available := false,
                    assigned_drone_id := some "d1" }],
        drone_port_mapping := [("d1", 100)], reserved_ports := [] }) :=
  c4_allocate_idempotent _ "d1" 100 (by decide)

/-! ## Claim C10: frame property of release_drone_from_order -/

theorem release_eq_of_none (s : FleetState) (o : String)
    (h : lookupA s.order_assignments o = none) :
    release_drone_from_order s o = some s := by
  unfold release_drone_from_order
  rw [h]

theorem release_eq_of_some (s : FleetState) (o d : String)
    (info : DroneInfo) (h : lookupA s.order_assignments o = some d)
    (hd : lookupA s.drones d = some info) :
    release_drone_from_order s o =
      some
        { drones := setA s.drones d
            { info with current_order_id := none, status := .idle },
          order_assignments := eraseA s.order_assignments o } := by
  unfold release_drone_from_order
  rw [h]
  dsimp only
  rw [hd]

/-- C10: release_drone_from_order on an unassigned order id is a total
no-op (and raises nothing); on an assigned order id whose mapped drone
is registered, it clears that drone's current_order_id, sets it Idle,
removes the one assignment entry, and leaves every other drone record
and assignment entry unchanged. -/
theorem c10_release_frame (s : FleetState) (o : String) :
    (lookupA s.order_assignments o = none →
      release_drone_from_order s o = some s) ∧
    (∀ d info, lookupA s.order_assignments o = some d →
      lookupA s.drones d = some info →
      ∃ s', release_drone_from_order s o = some s' ∧
        lookupA s'.drones d =
          some { info with current_order_id := none, status := .idle } ∧
        (∀ d', d' ≠ d → lookupA s'.drones d' = lookupA s.drones d') ∧
        lookupA s'.order_assignments o = none ∧
        (∀ o', o' ≠ o →
          lookupA s'.order_assignments o' =
            lookupA s.order_assignments o')) := by
  refine ⟨fun h => release_eq_of_none s o h, fun d info h hd => ?_⟩
  refine ⟨_, release_eq_of_some s o d info h hd, ?_, ?_, ?_, ?_⟩
  · exact lookupA_setA_self _ _ _
  · intro d' hne
    exact lookupA_setA_ne _ _ _ _ hne
  · exact lookupA_erase_self _ _
  · intro o' hne
    exact lookupA_erase_ne _ _ _ hne

/-- C10 (witness): the release on a concrete two-drone fleet with the
order assigned to the first drone. -/
theorem c10_release_frame_witness :
    ∃ s', release_drone_from_order
      { drones := [("d1",
          { status := .mission_active, current_order_id := some "o1",
            battery_level := 1, is_connected := true }),
        ("d2",
          { status := .armed, current_order_id := some "o2",
            battery_level := 1, is_connected := true })],
        order_assignments := [("o1", "d1"), ("o2", "d2")] } "o1" =
      some s' ∧
      lookupA s'.drones "d1" =
        some { status := .idle, current_order_id := none,
               battery_level := 1, is_connected := true } ∧
      lookupA s'.drones "d2" =
        some { status := .armed, current_order_id := some "o2",
               battery_level := 1, is_connected := true } := by
  obtain ⟨s', hrel, hd1, hframe, -, -⟩ :=
    (c10_release_frame
      { drones := [("d1",
          { status := .mission_active, current_order_id := some "o1",
            battery_level := 1, is_connected := true }),
        ("d2",
          { status := .armed, current_order_id := some "o2",
            battery_level := 1, is_connected := true })],
        order_assignments := [("o1", "d1"), ("o2", "d2")] } "o1").2
      "d1"
      { status := .mission_active, current_order_id := some "o1",
        battery_level := 1, is_connected := true }
      (by decide) (by decide)
  refine ⟨s', hrel, hd1, ?_⟩
  rw [hframe "d2" (by decide)]
  decide

/-! ## Claim C6: scheduler behaviour on executor rejection -/

/-- One idle, connected, fully charged drone. -/
def c6_fleet : FleetState :=
  { drones := [("d1",
      { status := .idle, current_order_id := none,
        battery_level := 1, is_connected := true })],
    order_assignments := [] }

/-- One pending order over that fleet. -/
def c6_sched : SchedulerState :=
  { orders := [{ id := "o1", created_at := 0, status := .pending }],
    fleet := c6_fleet, current_orders := [] }

/-- C6: counterexample.  With an executor that rejects the dispatch
(the race the spec itself describes), a single scheduler cycle marks
the order Failed immediately — it is not left Scheduled for a retry —
and the failure message _handle_mission_failure receives is
"Failed to start multi-drone mission", not "dispatch exhausted". -/
theorem c6_counterexample :
    (processPendingMultiDrone (fun _ f => (false, f)) c6_sched).2 =
      some ("o1", "Failed to start multi-drone mission") ∧
    statusOf
      (processPendingMultiDrone (fun _ f => (false, f)) c6_sched).1.orders
      "o1" = some .failed := by
  decide

/-- C6 (amended): whenever the executor call inside a scheduler cycle
returns false, the cycle immediately marks that order Failed (after
first having set it Scheduled), hands _handle_mission_failure the
message "Failed to start multi-drone mission", and performs no retry
bookkeeping of any kind. -/
theorem c6_rejection_fails_immediately
    (execMission : String → FleetState → Bool × FleetState)
    (s : SchedulerState) (d0 : String) (ord : DeliveryOrder)
    (f' : FleetState)
    (hav : get_available_drone s.fleet = some d0)
    (hold : oldestPending s.orders = some ord)
    (hexec : execMission ord.id s.fleet = (false, f')) :
    processPendingMultiDrone execMission s =
      ({ orders := setOrderStatus
           (setOrderStatus s.orders ord.id .scheduled) ord.id .failed,
         fleet := f', current_orders := s.current_orders },
       some (ord.id, "Failed to start multi-drone mission")) := by
  unfold processPendingMultiDrone
  rw [hav, hold]
  dsimp only
  rw [hexec]
  simp

/-- C6 (witness): the amended theorem at the concrete one-order state
with the rejecting executor. -/
theorem c6_rejection_fails_immediately_witness :
    processPendingMultiDrone (fun _ f => (false, f)) c6_sched =
      ({ orders := [{ id := "o1", created_at := 0, status := .failed }],
         fleet := c6_fleet, current_orders := [] },
       some ("o1", "Failed to start multi-drone mission")) := by
  rw [c6_rejection_fails_immediately (fun _ f => (false, f)) c6_sched
    "d1" { id := "o1", created_at := 0, status := .pending } c6_fleet
    (by decide) (by decide) rfl]
  decide

/-! ## Claim C7: health assessment conditions -/

theorem assess_low_battery (info : DroneInfo) (history : Option (List ℚ))
    (now : ℚ) (h : info.battery_level < mkRat 1 5) :
    .lowBattery ∈ (assess_drone_health info history now).warning_messages := by
  simp [assess_drone_health, h]

theorem assess_critical_battery (info : DroneInfo)
    (history : Option (List ℚ)) (now : ℚ)
    (h : info.battery_level < mkRat 1 10) :
    .criticalBattery ∈ (assess_drone_health info history now).error_messages ∧
    (assess_drone_health info history now).is_healthy = false := by
  by_cases h2 : info.is_connected = true <;>
    by_cases h3 : info.status = .error <;>
      by_cases h4 : info.status = .offline <;>
        simp [assess_drone_health, h, h2, h3, h4]

theorem assess_disconnected (info : DroneInfo) (history : Option (List ℚ))
    (now : ℚ) (h : info.is_connected = false) :
    .notConnected ∈ (assess_drone_health info history now).error_messages ∧
    (assess_drone_health info history now).is_healthy = false := by
  by_cases h3 : info.status = .error <;>
    by_cases h4 : info.status = .offline <;>
      simp [assess_drone_health, h, h3, h4]

theorem assess_stale (info : DroneInfo) (history : Option (List ℚ))
    (now : ℚ) (hist : List ℚ) (ts : ℚ) (hh : history = some hist)
    (hlast : hist.getLast? = some ts) (hstale : now - ts > 10) :
    .staleTelemetry ∈ (assess_drone_health info history now).warning_messages := by
  simp [assess_drone_health, staleCheck, hh, hlast, hstale]

theorem assess_bad_status (info : DroneInfo) (history : Option (List ℚ))
    (now : ℚ) (h : info.status = .error ∨ info.status = .offline) :
    (assess_drone_health info history now).error_messages ≠ [] ∧
    (assess_drone_health info history now).is_healthy = false := by
  rcases h with h | h <;>
    by_cases h1 : info.battery_level < mkRat 1 10 <;>
      by_cases h2 : info.is_connected = true <;>
        simp [assess_drone_health, h, h1, h2]

theorem assess_healthy_iff (info : DroneInfo) (history : Option (List ℚ))
    (now : ℚ) :
    ((assess_drone_health info history now).is_healthy = true ↔
      (assess_drone_health info history now).error_messages = []) := by
  by_cases h1 : info.battery_level < mkRat 1 10 <;>
    by_cases h2 : info.is_connected = true <;>
      by_cases h3 : info.status = .error <;>
        by_cases h4 : info.status = .offline <;>
          simp [assess_drone_health, h1, h2, h3, h4]

/-- C7: each condition of _assess_drone_health produces the stated
entry: battery below 0.2 a low-battery warning; battery below 0.1 a
critical-battery error and unhealthy; a disconnected drone a
not-connected error and unhealthy; a newest telemetry entry more than
10 seconds old a staleness warning; status Error or Offline an error
entry and unhealthy; and the drone is healthy iff its error list is
empty. -/
theorem c7_health_assessment (info : DroneInfo)
    (history : Option (List ℚ)) (now : ℚ) :
    (info.battery_level < mkRat 1 5 →
      .lowBattery ∈ (assess_drone_health info history now).warning_messages) ∧
    (info.battery_level < mkRat 1 10 →
      .criticalBattery ∈
        (assess_drone_health info history now).error_messages ∧
      (assess_drone_health info history now).is_healthy = false) ∧
    (info.is_connected = false →
      .notConnected ∈ (assess_drone_health info history now).error_messages ∧
      (assess_drone_health info history now).is_healthy = false) ∧
    (∀ hist ts, history = some hist → hist.getLast? = some ts →
      now - ts > 10 →
      .staleTelemetry ∈
        (assess_drone_health info history now).warning_messages) ∧
    ((info.status = .error ∨ info.status = .offline) →
      (assess_drone_health info history now).error_messages ≠ [] ∧
      (assess_drone_health info history now).is_healthy = false) ∧
    ((assess_drone_health info history now).is_healthy = true ↔
      (assess_drone_health info history now).error_messages = []) :=
  ⟨assess_low_battery info history now,
   assess_critical_battery info history now,
   assess_disconnected info history now,
   fun hist ts hh hlast hstale =>
     assess_stale info history now hist ts hh hlast hstale,
   assess_bad_status info history now,
   assess_healthy_iff info history now⟩

/-- The concrete drone of the spec's health scenario: battery 0.08 and
disconnected. -/
def c7_info : DroneInfo :=
  { status := .idle, current_order_id := none,
    battery_level := mkRat 8 100, is_connected := false }

/-- C7 (witness): the scenario of section 8 — battery 0.08 and
connected=false give an unhealthy assessment carrying both the
critical-battery and the not-connected error. -/
theorem c7_health_assessment_witness :
    .criticalBattery ∈ (assess_drone_health c7_info none 0).error_messages ∧
    .notConnected ∈ (assess_drone_health c7_info none 0).error_messages ∧
    (assess_drone_health c7_info none 0).is_healthy = false := by
  obtain ⟨-, h2, h3, -, -, -⟩ := c7_health_assessment c7_info none 0
  exact ⟨(h2 (by decide)).1, (h3 rfl).1, (h2 (by decide)).2⟩

/-! ## Claim C8: auto_fix_port_assignments processing order -/

/-- An inconsistent pool: the mapping entries were inserted in the
order b, a (b first), both mapped ports are still marked available and
port 102 is unavailable with no assignee. -/
def c8_state : PortManagerState :=
  { ports := [{ port := 100 }, { port := 101 },
      { port := 102, is_available := false, assigned_drone_id := none }],
    drone_port_mapping := [("b", 101), ("a", 100)],
    reserved_ports := [] }

/-- C8: counterexample.  auto_fix_port_assignments re-allocates the
previously mapped drones in dict insertion order (b before a), so b
receives the lowest port 100 and a receives 101; processing in sorted
unit-id order, as the claim states, would give a port 100.  The actual
repair therefore differs from the sorted-order repair. -/
theorem c8_counterexample :
    validate_port_assignments c8_state ≠ [] ∧
    lookupA (auto_fix_port_assignments c8_state).drone_port_mapping "a" =
      some 101 ∧
    lookupA (autoRepairSortedSpec c8_state).drone_port_mapping "a" =
      some 100 ∧
    auto_fix_port_assignments c8_state ≠ autoRepairSortedSpec c8_state := by
  decide

/-- C8 (amended): when validate_port_assignments reports at least one
inconsistency, auto_fix_port_assignments resets every slot to available
with no assignee and then re-allocates a slot for every drone of the
previous mapping, processing those drones in the mapping's insertion
(dict iteration) order — not in sorted unit-id order. -/
theorem c8_auto_fix_insertion_order (s : PortManagerState)
    (h : validate_port_assignments s ≠ []) :
    (∀ c ∈ (reset_all_assignments s).ports,
      c.is_available = true ∧ c.assigned_drone_id = none) ∧
    auto_fix_port_assignments s =
      reallocLoop
        { reset_all_assignments s with drone_port_mapping := [] }
        (s.drone_port_mapping.map Prod.fst) := by
  constructor
  · intro c hc
    obtain ⟨c0, -, rfl⟩ := List.mem_map.mp hc
    exact ⟨rfl, rfl⟩
  · unfold auto_fix_port_assignments
    rw [if_neg h]
    rfl

/-- C8 (witness): the amended description evaluated on the concrete
inconsistent pool. -/
theorem c8_auto_fix_insertion_order_witness :
    auto_fix_port_assignments c8_state =
      reallocLoop
        { reset_all_assignments c8_state with drone_port_mapping := [] }
        (c8_state.drone_port_mapping.map Prod.fst) :=
  (c8_auto_fix_insertion_order c8_state (by decide)).2

/-! ## Pool operation sequences and the allocation invariant
(claims C3, C5, C9) -/

/-- A client-visible pool operation. -/
inductive PoolOp where
  | alloc (d : String)
  | release (d : String)
  deriving Repr, DecidableEq

/-- Apply one pool operation, keeping only the state. -/
def applyOp (s : PortManagerState) : PoolOp → PortManagerState
  | .alloc d => (allocate_port s d).2
  | .release d => (release_port s d).2

/-- Apply a finite sequence of pool operations in order. -/
def applyOps (s : PortManagerState) : List PoolOp → PortManagerState
  | [] => s
  | op :: rest => applyOps (applyOp s op) rest

/-- The consistency invariant maintained by allocate_port and
release_port: port numbers and mapping keys are unique, every mapped
drone's port exists, is unavailable and names the drone back, and every
unavailable port is the image of exactly such a mapping entry. -/
structure PoolInv (s : PortManagerState) : Prop where
  ports_nodup : (s.ports.map PortConfig.port).Nodup
  keys_nodup : (s.drone_port_mapping.map Prod.fst).Nodup
  mapped : ∀ d p, lookupA s.drone_port_mapping d = some p →
    ∃ c ∈ s.ports, c.port = p ∧ c.is_available = false ∧
      c.assigned_drone_id = some d
  unavail : ∀ c ∈ s.ports, c.is_available = false →
    ∃ d0, c.assigned_drone_id = some d0 ∧
      lookupA s.drone_port_mapping d0 = some c.port

/-- Entries of a port list with unique port numbers are determined by
their port number. -/
theorem port_entry_unique {l : List PortConfig}
    (hnd : (l.map PortConfig.port).Nodup) {c1 c2 : PortConfig}
    (h1 : c1 ∈ l) (h2 : c2 ∈ l) (hp : c1.port = c2.port) : c1 = c2 := by
  induction l with
  | nil => cases h1
  | cons c rest ih =>
    simp only [List.map_cons, List.nodup_cons] at hnd
    rcases List.mem_cons.mp h1 with h1e | h1m
    · rcases List.mem_cons.mp h2 with h2e | h2m
      · exact h1e.trans h2e.symm
      · subst h1e
        exact absurd (List.mem_map.mpr ⟨c2, h2m, hp.symm⟩) hnd.1
    · rcases List.mem_cons.mp h2 with h2e | h2m
      · subst h2e
        exact absurd (List.mem_map.mpr ⟨c1, h1m, hp⟩) hnd.1
      · exact ih hnd.2 h1m h2m

theorem eraseA_sublist {κ α : Type} [DecidableEq κ]
    (m : List (κ × α)) (k : κ) : (eraseA m k).Sublist m := by
  induction m with
  | nil => exact List.Sublist.refl _
  | cons e rest ih =>
    obtain ⟨k1, v1⟩ := e
    by_cases h : k1 = k
    · simpa [eraseA, h] using ih.cons (k1, v1)
    · simpa [eraseA, h] using ih.cons₂ (k1, v1)

theorem findAlloc_eq_none_iff (d : String) (rsv : List Nat)
    (l : List PortConfig) :
    findAlloc d rsv l = none ↔
      ∀ c ∈ l, ¬ (c.is_available = true ∧ c.port ∉ rsv) := by
  induction l with
  | nil => simp [findAlloc]
  | cons c rest ih =>
    by_cases h : c.is_available = true ∧ c.port ∉ rsv
    · constructor
      · intro hc
        simp only [findAlloc, if_pos h] at hc
        cases hc
      · intro hall
        exact absurd h (hall c (List.mem_cons_self c rest))
    · simp only [findAlloc, if_neg h]
      constructor
      · intro hc
        have hrest : findAlloc d rsv rest = none := by
          cases hf : findAlloc d rsv rest with
          | none => rfl
          | some pr =>
            obtain ⟨p, r⟩ := pr
            rw [hf] at hc
            cases hc
        intro c' hc'
        rcases List.mem_cons.mp hc' with h1 | h1
        · subst h1
          exact h
        · exact (ih.mp hrest) c' h1
      · intro hall
        have hrest : findAlloc d rsv rest = none :=
          ih.mpr (fun c' hc' => hall c' (List.mem_cons_of_mem _ hc'))
        rw [hrest]

theorem findAlloc_some_spec (d : String) (rsv : List Nat)
    (l : List PortConfig) (p : Nat) (l' : List PortConfig)
    (h : findAlloc d rsv l = some (p, l')) :
    ∃ pre c post, l = pre ++ c :: post ∧
      (∀ c' ∈ pre, ¬ (c'.is_available = true ∧ c'.port ∉ rsv)) ∧
      c.is_available = true ∧ c.port ∉ rsv ∧ c.port = p ∧
      l' = pre ++
        { c with is_available := false, assigned_drone_id := some d } ::
          post := by
  induction l generalizing p l' with
  | nil => cases h
  | cons c rest ih =>
    by_cases hc : c.is_available = true ∧ c.port ∉ rsv
    · simp only [findAlloc, if_pos hc] at h
      obtain ⟨hp, hl'⟩ := Prod.ext_iff.mp (Option.some.inj h)
      dsimp only at hp hl'
      exact ⟨[], c, rest, rfl, by simp, hc.1, hc.2, hp, hl'.symm⟩
    · simp only [findAlloc, if_neg hc] at h
      cases hf : findAlloc d rsv rest with
      | none =>
        rw [hf] at h
        cases h
      | some pr =>
        obtain ⟨p0, rest'⟩ := pr
        rw [hf] at h
        dsimp only at h
        obtain ⟨hp, hl'⟩ := Prod.ext_iff.mp (Option.some.inj h)
        dsimp only at hp hl'
        obtain ⟨pre, c0, post, hrest, hpre, hav, hrsv, hport, hrest'⟩ :=
          ih p0 rest' hf
        refine ⟨c :: pre, c0, post, by rw [hrest]; rfl, ?_, hav, hrsv,
          hport.trans hp, ?_⟩
        · intro c' hc'
          rcases List.mem_cons.mp hc' with h1 | h1
          · subst h1
            exact hc
          · exact hpre c' h1
        · rw [← hl', hrest']
          rfl

theorem allocate_eq_of_mapped (s : PortManagerState) (d : String)
    (p : Nat) (h : lookupA s.drone_port_mapping d = some p) :
    allocate_port s d = (some p, s) := by
  unfold allocate_port
  rw [h]

theorem allocate_eq_of_found (s : PortManagerState) (d : String)
    (p : Nat) (ports' : List PortConfig)
    (h : lookupA s.drone_port_mapping d = none)
    (hf : findAlloc d s.reserved_ports s.ports = some (p, ports')) :
    allocate_port s d =
      (some p,
        { s with ports := ports',
                 drone_port_mapping :=
                   s.drone_port_mapping ++ [(d, p)] }) := by
  unfold allocate_port
  rw [h]
  dsimp only
  rw [hf]

theorem allocate_eq_of_exhausted (s : PortManagerState) (d : String)
    (h : lookupA s.drone_port_mapping d = none)
    (hf : findAlloc d s.reserved_ports s.ports = none) :
    allocate_port s d = (none, s) := by
  unfold allocate_port
  rw [h]
  dsimp only
  rw [hf]

theorem release_eq_of_unmapped (s : PortManagerState) (d : String)
    (h : lookupA s.drone_port_mapping d = none) :
    release_port s d = (false, s) := by
  unfold release_port
  rw [h]

theorem release_eq_of_mapped (s : PortManagerState) (d : String)
    (p : Nat) (c : PortConfig)
    (h : lookupA s.drone_port_mapping d = some p)
    (hc : s.ports.find? (fun c0 => c0.port = p) = some c) :
    release_port s d =
      (true,
        { s with
            ports := setPortConfig s.ports p
              { c with is_available := true, assigned_drone_id := none },
            drone_port_mapping := eraseA s.drone_port_mapping d }) := by
  unfold release_port
  rw [h]
  dsimp only
  rw [hc]

theorem poolInv_alloc (s : PortManagerState) (d : String)
    (h : PoolInv s) : PoolInv (allocate_port s d).2 := by
  cases hm : lookupA s.drone_port_mapping d with
  | some p =>
    rw [allocate_eq_of_mapped s d p hm]
    exact h
  | none =>
    cases hf : findAlloc d s.reserved_ports s.ports with
    | none =>
      rw [allocate_eq_of_exhausted s d hm hf]
      exact h
    | some pr =>
      obtain ⟨p, ports'⟩ := pr
      rw [allocate_eq_of_found s d p ports' hm hf]
      obtain ⟨pre, c, post, hsplit, hpre, hav, hrsv, hport, hports'⟩ :=
        findAlloc_some_spec d s.reserved_ports s.ports p ports' hf
      subst hports'
      have hdnotin : d ∉ s.drone_port_mapping.map Prod.fst :=
        (lookupA_eq_none_iff _ _).mp hm
      refine ⟨?_, ?_, ?_, ?_⟩
      · have hmapeq :
            (pre ++
              { c with is_available := false,
                       assigned_drone_id := some d } :: post).map
              PortConfig.port = s.ports.map PortConfig.port := by
          rw [hsplit]
          simp
        dsimp only
        rw [hmapeq]
        exact h.ports_nodup
      · dsimp only
        rw [List.map_append]
        refine List.Nodup.append h.keys_nodup (by simp) ?_
        intro a ha hb
        simp only [List.map_cons, List.map_nil, List.mem_singleton] at hb
        subst hb
        exact hdnotin ha
      · intro d' p' hm'
        dsimp only at hm'
        rw [lookupA_append] at hm'
        cases hmd : lookupA s.drone_port_mapping d' with
        | some q =>
          rw [hmd] at hm'
          dsimp only at hm'
          obtain rfl := Option.some.inj hm'
          obtain ⟨c0, hc0mem, hc0port, hc0na, hc0as⟩ := h.mapped d' q hmd
          rw [hsplit] at hc0mem
          rcases List.mem_append.mp hc0mem with h1 | h1
          · exact ⟨c0, List.mem_append_left _ h1, hc0port, hc0na, hc0as⟩
          · rcases List.mem_cons.mp h1 with h2 | h2
            · subst h2
              rw [hav] at hc0na
              cases hc0na
            · exact ⟨c0,
                List.mem_append_right _ (List.mem_cons_of_mem _ h2),
                hc0port, hc0na, hc0as⟩
        | none =>
          rw [hmd] at hm'
          dsimp only at hm'
          simp only [lookupA] at hm'
          by_cases hdd : d = d'
          · subst hdd
            rw [if_pos rfl] at hm'
            obtain rfl := Option.some.inj hm'
            refine ⟨{ c with is_available := false, assigned_drone_id := some d },
              List.mem_append_right _ (List.mem_cons_self _ _),
              hport, rfl, rfl⟩
          · rw [if_neg hdd] at hm'
            cases hm'
      · intro c' hc' hna
        dsimp only at hc' ⊢
        rcases List.mem_append.mp hc' with h1 | h1
        · have hc'mem : c' ∈ s.ports := by
            rw [hsplit]
            exact List.mem_append_left _ h1
          obtain ⟨d0, hd0as, hd0look⟩ := h.unavail c' hc'mem hna
          exact ⟨d0, hd0as, lookupA_append_left _ _ _ _ hd0look⟩
        · rcases List.mem_cons.mp h1 with h2 | h2
          · subst h2
            refine ⟨d, rfl, ?_⟩
            rw [lookupA_append_right _ _ _ hm]
            simp [lookupA, hport]
          · have hc'mem : c' ∈ s.ports := by
              rw [hsplit]
              exact List.mem_append_right _ (List.mem_cons_of_mem _ h2)
            obtain ⟨d0, hd0as, hd0look⟩ := h.unavail c' hc'mem hna
            exact ⟨d0, hd0as, lookupA_append_left _ _ _ _ hd0look⟩

theorem find_port_exists {l : List PortConfig} {p : Nat}
    (c0 : PortConfig) (hmem : c0 ∈ l) (hport : c0.port = p) :
    ∃ c, l.find? (fun c1 => c1.port = p) = some c ∧ c ∈ l ∧ c.port = p := by
  induction l with
  | nil => cases hmem
  | cons c rest ih =>
    by_cases hp : c.port = p
    · exact ⟨c, by simp [List.find?, hp], List.mem_cons_self _ _, hp⟩
    · rcases List.mem_cons.mp hmem with h1 | h1
      · subst h1
        exact absurd hport hp
      · obtain ⟨c', hf, hmem', hp'⟩ := ih h1
        exact ⟨c', by simp [List.find?, hp, hf],
          List.mem_cons_of_mem _ hmem', hp'⟩

theorem setPortConfig_map_port (l : List PortConfig) (p : Nat)
    (c' : PortConfig) (h : c'.port = p) :
    (setPortConfig l p c').map PortConfig.port =
      l.map PortConfig.port := by
  unfold setPortConfig
  rw [List.map_map]
  apply List.map_congr_left
  intro a ha
  by_cases hp : a.port = p
  · simp [Function.comp, hp, h]
  · simp [Function.comp, hp]

theorem poolInv_release (s : PortManagerState) (d : String)
    (h : PoolInv s) : PoolInv (release_port s d).2 := by
  cases hm : lookupA s.drone_port_mapping d with
  | none =>
    rw [release_eq_of_unmapped s d hm]
    exact h
  | some p =>
    obtain ⟨c0, hc0mem, hc0port, hc0na, hc0as⟩ := h.mapped d p hm
    obtain ⟨c, hcfind, hcmem, hcport⟩ := find_port_exists c0 hc0mem hc0port
    have hceq : c = c0 :=
      port_entry_unique h.ports_nodup hcmem hc0mem
        (hcport.trans hc0port.symm)
    rw [release_eq_of_mapped s d p c hm hcfind]
    have hcas : c.assigned_drone_id = some d := hceq ▸ hc0as
    have hrp : ({ c with is_available := true, assigned_drone_id := none } : PortConfig).port = p := hcport
    refine ⟨?_, ?_, ?_, ?_⟩
    · dsimp only
      rw [setPortConfig_map_port _ _ _ hrp]
      exact h.ports_nodup
    · exact List.Nodup.sublist
        ((eraseA_sublist s.drone_port_mapping d).map Prod.fst)
        h.keys_nodup
    · intro d' p' hm'
      dsimp only at hm' ⊢
      by_cases hdd : d' = d
      · subst hdd
        rw [lookupA_erase_self] at hm'
        cases hm'
      · rw [lookupA_erase_ne _ _ _ hdd] at hm'
        obtain ⟨c1, hc1mem, hc1port, hc1na, hc1as⟩ := h.mapped d' p' hm'
        have hpne : c1.port ≠ p := by
          intro hpe
          have : c1 = c :=
            port_entry_unique h.ports_nodup hc1mem hcmem
              (hpe.trans hcport.symm)
          rw [this, hcas] at hc1as
          exact hdd (Option.some.inj hc1as).symm
        refine ⟨c1, ?_, hc1port, hc1na, hc1as⟩
        have hmm := List.mem_map_of_mem
          (fun c2 => if c2.port = p
            then { c with is_available := true,
                          assigned_drone_id := none }
            else c2) hc1mem
        unfold setPortConfig
        dsimp only at hmm
        rwa [if_neg hpne] at hmm
    · intro c' hc' hna
      dsimp only at hc' ⊢
      obtain ⟨c1, hc1mem, hfc1⟩ := List.mem_map.mp hc'
      by_cases hpe : c1.port = p
      · rw [if_pos hpe] at hfc1
        rw [← hfc1] at hna
        cases hna
      · rw [if_neg hpe] at hfc1
        subst hfc1
        obtain ⟨d0, hd0as, hd0look⟩ := h.unavail c1 hc1mem hna
        have hd0ne : d0 ≠ d := by
          intro he
          subst he
          rw [hm] at hd0look
          exact hpe (Option.some.inj hd0look).symm
        exact ⟨d0, hd0as, by
          rw [lookupA_erase_ne _ _ _ hd0ne]
          exact hd0look⟩

theorem poolInv_applyOp (s : PortManagerState) (op : PoolOp)
    (h : PoolInv s) : PoolInv (applyOp s op) := by
  cases op with
  | alloc d => exact poolInv_alloc s d h
  | release d => exact poolInv_release s d h

theorem poolInv_applyOps (s : PortManagerState) (ops : List PoolOp)
    (h : PoolInv s) : PoolInv (applyOps s ops) := by
  induction ops generalizing s with
  | nil => exact h
  | cons op rest ih => exact ih _ (poolInv_applyOp s op h)

theorem poolInv_init_pool (base count : Nat) (avail : Nat → Bool) :
    PoolInv (init_port_pool base count avail) := by
  refine ⟨?_, List.Pairwise.nil, ?_, ?_⟩
  · have :
        ((((List.range count).filter
            (fun i => avail (base + i))).map
          (fun i => ({ port := base + i } : PortConfig))).map
            PortConfig.port) =
        (((List.range count).filter (fun i => avail (base + i))).map
          (fun i => base + i)) := by
      rw [List.map_map]
      rfl
    dsimp only [init_port_pool]
    rw [this]
    exact List.Nodup.map (fun a b hab => by omega)
      ((List.nodup_range count).filter _)
  · intro d p hm
    cases hm
  · intro c hc hna
    obtain ⟨i, -, hfc⟩ := List.mem_map.mp hc
    rw [← hfc] at hna
    cases hna

theorem poolInv_mapping_inj (s : PortManagerState) (h : PoolInv s) :
    ∀ d1 d2 p, lookupA s.drone_port_mapping d1 = some p →
      lookupA s.drone_port_mapping d2 = some p → d1 = d2 := by
  intro d1 d2 p h1 h2
  obtain ⟨c1, m1, p1, na1, as1⟩ := h.mapped d1 p h1
  obtain ⟨c2, m2, p2, na2, as2⟩ := h.mapped d2 p h2
  have hce : c1 = c2 :=
    port_entry_unique h.ports_nodup m1 m2 (p1.trans p2.symm)
  rw [hce, as2] at as1
  exact (Option.some.inj as1).symm

theorem values_nodup_of_inj (m : List (String × Nat))
    (hk : (m.map Prod.fst).Nodup)
    (hinj : ∀ d1 d2 p, lookupA m d1 = some p →
      lookupA m d2 = some p → d1 = d2) :
    (m.map Prod.snd).Nodup := by
  induction m with
  | nil => exact List.Pairwise.nil
  | cons e rest ih =>
    obtain ⟨d, p⟩ := e
    simp only [List.map_cons, List.nodup_cons] at hk ⊢
    constructor
    · intro hp
      obtain ⟨e2, hmem, hpe⟩ := List.mem_map.mp hp
      obtain ⟨d2, p2⟩ := e2
      dsimp only at hpe
      rw [hpe] at hmem
      have hd2mem : d2 ∈ rest.map Prod.fst :=
        List.mem_map.mpr ⟨(d2, p), hmem, rfl⟩
      have hd2 : ¬ (d = d2) := fun he => hk.1 (he ▸ hd2mem)
      have h1 : lookupA ((d, p) :: rest) d = some p := by
        simp [lookupA]
      have h2 : lookupA ((d, p) :: rest) d2 = some p := by
        simp only [lookupA, if_neg hd2]
        exact lookupA_of_mem_nodup rest d2 p hk.2 hmem
      exact hd2 ((hinj d d2 p h1 h2) ▸ rfl)
    · apply ih hk.2
      intro d1 d2 q h1 h2
      have hd1 : ¬ (d = d1) := by
        intro he
        subst he
        exact hk.1 (List.mem_map.mpr ⟨(d, q), lookupA_mem _ _ _ h1, rfl⟩)
      have hd2 : ¬ (d = d2) := by
        intro he
        subst he
        exact hk.1 (List.mem_map.mpr ⟨(d, q), lookupA_mem _ _ _ h2, rfl⟩)
      refine hinj d1 d2 q ?_ ?_
      · simp only [lookupA, if_neg hd1]
        exact h1
      · simp only [lookupA, if_neg hd2]
        exact h2

theorem dupScan_eq_nil (m : List (String × Nat))
    (seen : List (Nat × String))
    (hvals : (m.map Prod.snd).Nodup)
    (hseen : ∀ e ∈ m, lookupA seen e.2 = none) :
    dupScan m seen = [] := by
  induction m generalizing seen with
  | nil => rfl
  | cons e rest ih =>
    obtain ⟨d, p⟩ := e
    have hp : lookupA seen p = none := hseen (d, p) (List.mem_cons_self _ _)
    unfold dupScan
    rw [hp]
    simp only [List.map_cons, List.nodup_cons] at hvals
    apply ih (seen ++ [(p, d)]) hvals.2
    intro e he
    rw [lookupA_append_right _ _ _ (hseen e (List.mem_cons_of_mem _ he))]
    have hne : ¬ (p = e.2) := by
      intro hpe
      exact hvals.1 (hpe ▸ List.mem_map.mpr ⟨e, he, rfl⟩)
    simp [lookupA, hne]

theorem availScan_eq_nil (ports : List PortConfig)
    (m : List (String × Nat))
    (h : ∀ e ∈ m, ∀ c,
      ports.find? (fun c1 => c1.port = e.2) = some c →
        c.is_available = false) :
    availScan ports m = [] := by
  induction m with
  | nil => rfl
  | cons e rest ih =>
    obtain ⟨d, p⟩ := e
    unfold availScan
    cases hf : ports.find? (fun c1 => c1.port = p) with
    | none =>
      exact ih (fun e' he' c hc => h e' (List.mem_cons_of_mem _ he') c hc)
    | some c =>
      have hcf : c.is_available = false :=
        h (d, p) (List.mem_cons_self _ _) c hf
      dsimp only
      rw [hcf, if_neg Bool.false_ne_true]
      exact ih (fun e' he' c' hc' => h e' (List.mem_cons_of_mem _ he') c' hc')

theorem unassignedScan_eq_nil (m : List (String × Nat))
    (ports : List PortConfig)
    (h : ∀ c ∈ ports, c.is_available = false →
      assigneeMissing m c.assigned_drone_id = false) :
    unassignedScan m ports = [] := by
  induction ports with
  | nil => rfl
  | cons c rest ih =>
    unfold unassignedScan
    rw [if_neg ?hcond]
    · exact ih (fun c' h1 h2 => h c' (List.mem_cons_of_mem _ h1) h2)
    · rintro ⟨h1, h2⟩
      rw [h c (List.mem_cons_self _ _) h1] at h2
      cases h2

theorem validate_eq_nil_of_inv (s : PortManagerState) (h : PoolInv s) :
    validate_port_assignments s = [] := by
  have hinj := poolInv_mapping_inj s h
  have hvals := values_nodup_of_inj _ h.keys_nodup hinj
  have h1 : dupScan s.drone_port_mapping [] = [] :=
    dupScan_eq_nil _ _ hvals (fun e _ => rfl)
  have h2 : availScan s.ports s.drone_port_mapping = [] := by
    apply availScan_eq_nil
    intro e he c hc
    have hl : lookupA s.drone_port_mapping e.1 = some e.2 :=
      lookupA_of_mem_nodup _ e.1 e.2 h.keys_nodup he
    obtain ⟨c0, m0, p0, na0, -⟩ := h.mapped e.1 e.2 hl
    have hcmem : c ∈ s.ports := List.mem_of_find?_eq_some hc
    have hcport : c.port = e.2 := by
      have := List.find?_some hc
      exact of_decide_eq_true this
    have : c = c0 :=
      port_entry_unique h.ports_nodup hcmem m0 (hcport.trans p0.symm)
    rw [this]
    exact na0
  have h3 : unassignedScan s.drone_port_mapping s.ports = [] := by
    apply unassignedScan_eq_nil
    intro c hc hna
    obtain ⟨d0, has, hlook⟩ := h.unavail c hc hna
    rw [has]
    unfold assigneeMissing
    dsimp only
    rw [hlook]
    rfl
  unfold validate_port_assignments
  rw [h1, h2, h3]
  rfl

/-! ## Claim C3: no two drones ever hold the same port -/

/-- C3: after any finite sequence of allocate_port / release_port calls
on a freshly initialized pool, the drone-to-port mapping is injective:
two drones holding the same port number are the same drone. -/
theorem c3_port_mapping_injective (base count : Nat) (avail : Nat → Bool)
    (ops : List PoolOp) (d1 d2 : String) (p : Nat)
    (h1 : lookupA (applyOps (init_port_pool base count avail)
      ops).drone_port_mapping d1 = some p)
    (h2 : lookupA (applyOps (init_port_pool base count avail)
      ops).drone_port_mapping d2 = some p) :
    d1 = d2 :=
  poolInv_mapping_inj _
    (poolInv_applyOps _ ops (poolInv_init_pool base count avail))
    d1 d2 p h1 h2

/-- C3 (witness): after two allocations on a fresh 2-slot pool, the
holder of port 100 is unique. -/
theorem c3_port_mapping_injective_witness :
    lookupA (applyOps (init_port_pool 100 2 (fun _ => true))
      [.alloc "a", .alloc "b"]).drone_port_mapping "a" = some 100 ∧
    lookupA (applyOps (init_port_pool 100 2 (fun _ => true))
      [.alloc "a", .alloc "b"]).drone_port_mapping "b" = some 101 ∧
    "a" = "a" :=
  ⟨by decide, by decide,
    c3_port_mapping_injective 100 2 (fun _ => true)
      [.alloc "a", .alloc "b"] "a" "a" 100 (by decide) (by decide)⟩

/-! ## Claim C9: validate_port_assignments stays empty -/

/-- C9: from a freshly initialized pool, any finite sequence of
allocate_port / release_port calls leaves validate_port_assignments
empty — none of the three consistency faults is reachable. -/
theorem c9_validate_stays_empty (base count : Nat) (avail : Nat → Bool)
    (ops : List PoolOp) :
    validate_port_assignments
      (applyOps (init_port_pool base count avail) ops) = [] :=
  validate_eq_nil_of_inv _
    (poolInv_applyOps _ ops (poolInv_init_pool base count avail))

/-! ## Claim C5: allocation picks the lowest free non-reserved slot -/

/-- The 4-slot pool of the spec's scenario, base 100, every probe
passing. -/
def c5_s0 : PortManagerState := init_port_pool 100 4 (fun _ => true)

def c5_s1 : PortManagerState := (allocate_port c5_s0 "u1").2

def c5_s2 : PortManagerState := (allocate_port c5_s1 "u2").2

def c5_s3 : PortManagerState := (allocate_port c5_s2 "u3").2

def c5_s4 : PortManagerState := (allocate_port c5_s3 "u4").2

/-- C5: for a drone with no port, on a pool whose slots are in
ascending port order (as initialize_port_pool builds them), allocation
with no free non-reserved slot returns none and changes nothing, and
allocation with an eligible slot picks one that is free, non-reserved
and lowest-numbered among the eligible slots, marks it unavailable for
that drone and appends the mapping; moreover the concrete 4-slot pool
from base 100 hands out 100,101,102,103 in order and a fifth
allocation returns none with no state change. -/
theorem c5_allocate_lowest (s : PortManagerState) (d : String)
    (hd : lookupA s.drone_port_mapping d = none)
    (hsorted : s.ports.Pairwise (fun a b => a.port < b.port)) :
    ((∀ c ∈ s.ports,
        ¬ (c.is_available = true ∧ c.port ∉ s.reserved_ports)) →
      allocate_port s d = (none, s)) ∧
    (∀ c0 ∈ s.ports, c0.is_available = true →
      c0.port ∉ s.reserved_ports →
      ∃ p pre c post,
        allocate_port s d =
          (some p,
            { s with
                ports := pre ++ { c with is_available := false, assigned_drone_id := some d } :: post,
                drone_port_mapping :=
                  s.drone_port_mapping ++ [(d, p)] }) ∧
        s.ports = pre ++ c :: post ∧ c.port = p ∧
        c.is_available = true ∧ p ∉ s.reserved_ports ∧
        (∀ c' ∈ s.ports, c'.is_available = true →
          c'.port ∉ s.reserved_ports → p ≤ c'.port)) ∧
    ((allocate_port c5_s0 "u1").1 = some 100 ∧
      (allocate_port c5_s1 "u2").1 = some 101 ∧
      (allocate_port c5_s2 "u3").1 = some 102 ∧
      (allocate_port c5_s3 "u4").1 = some 103 ∧
      allocate_port c5_s4 "u5" = (none, c5_s4)) := by
  refine ⟨?_, ?_, by decide⟩
  · intro hall
    exact allocate_eq_of_exhausted s d hd
      ((findAlloc_eq_none_iff d s.reserved_ports s.ports).mpr hall)
  · intro c0 hc0 hav0 hrsv0
    cases hf : findAlloc d s.reserved_ports s.ports with
    | none =>
      exact absurd ⟨hav0, hrsv0⟩
        (((findAlloc_eq_none_iff d s.reserved_ports s.ports).mp hf)
          c0 hc0)
    | some pr =>
      obtain ⟨p, ports'⟩ := pr
      obtain ⟨pre, c, post, hsplit, hpre, hav, hrsv, hport, hports'⟩ :=
        findAlloc_some_spec d s.reserved_ports s.ports p ports' hf
      subst hports'
      refine ⟨p, pre, c, post, allocate_eq_of_found s d p _ hd hf,
        hsplit, hport, hav, hport ▸ hrsv, ?_⟩
      intro c' hc' hav' hrsv'
      rw [hsplit] at hc' hsorted
      rcases List.mem_append.mp hc' with h1 | h1
      · exact absurd ⟨hav', hrsv'⟩ (hpre c' h1)
      · rcases List.mem_cons.mp h1 with h2 | h2
        · subst h2
          exact hport.symm.le
        · obtain ⟨-, hcpost, -⟩ := List.pairwise_append.mp hsorted
          have hlt := (List.pairwise_cons.mp hcpost).1 c' h2
          rw [hport] at hlt
          exact le_of_lt hlt

/-- C5 (witness): the eligible-slot branch applied to the fresh 4-slot
pool, with the hypotheses discharged concretely. -/
theorem c5_allocate_lowest_witness :
    ∃ p pre c post,
      allocate_port c5_s0 "u1" =
        (some p,
          { c5_s0 with
              ports := pre ++ { c with is_available := false, assigned_drone_id := some "u1" } :: post,
              drone_port_mapping :=
                c5_s0.drone_port_mapping ++ [("u1", p)] }) ∧
      c5_s0.ports = pre ++ c :: post ∧ c.port = p ∧
      c.is_available = true ∧ p ∉ c5_s0.reserved_ports ∧
      (∀ c' ∈ c5_s0.ports, c'.is_available = true →
        c'.port ∉ c5_s0.reserved_ports → p ≤ c'.port) :=
  (c5_allocate_lowest c5_s0 "u1" (by decide) (by decide)).2.1
    { port := 100 } (by decide) rfl (by decide)

end DeliveryPlanner
